import Mathlib

/-!
Verification of the task registry and data-loading layer (`src/tasks.py`).

The Python module is shallowly embedded: every definition below is a direct
translation of a function or class-construction fragment of `src/tasks.py`,
with file contents, parsed JSON records and scorer states passed explicitly
as values.  External collaborators that the repository keeps in other files
(`utils.process_sentence`) are modelled from the specification and marked as
such in their doc comments.
-/

namespace Jiant

/-! ## Task registry (`register_task`, lines 42-62) -/

/-- A registry entry as built by `register_task`: the Python code stores the
pair `(cls, rel_path)` when no keyword options are given and the triple
`(cls, rel_path, kw)` otherwise.  `C` is the (opaque) type of task classes,
`K` the type of keyword-option values. -/
inductive RegEntry (C K : Type) where
  | pair (cls : C) (relPath : String)
  | triple (cls : C) (relPath : String) (kw : List (String × K))
  deriving DecidableEq, Repr

/-- The registry is a map from task names to entries (Python dict). -/
def Registry (C K : Type) := String → Option (RegEntry C K)

/-- `entry = (cls, rel_path, kw) if kw else (cls, rel_path)` (line 59).
A Python dict is truthy iff non-empty. -/
def mkRegEntry {C K : Type} (cls : C) (relPath : String)
    (kw : List (String × K)) : RegEntry C K :=
  if kw.isEmpty then .pair cls relPath else .triple cls relPath kw

/-- `register_task(name, rel_path, **kw)` applied to class `cls`:
`REGISTRY[name] = entry` (lines 58-61). -/
def register_task {C K : Type} (name relPath : String)
    (kw : List (String × K)) (cls : C)
    (reg : Registry C K) : Registry C K :=
  fun n => if n = name then some (mkRegEntry cls relPath kw) else reg n

/-! ## Edge probing (`EdgeProbingTask`, lines 375-559) -/

/-- One target of an edge-probing record: two half-open token spans and a
label (a single string or a list of strings in the JSON; wrapped later). -/
structure EdgeTarget where
  span1 : Int × Int
  span2 : Int × Int
  label : List String
  deriving DecidableEq, Repr

/-- One JSON record: `text` plus an optional `targets` list.  `none` models a
record whose JSON object has no `targets` key (`record.get('targets', None)`
then returns `None`). -/
structure EdgeRecord where
  text : String
  targets : Option (List EdgeTarget)
  deriving DecidableEq, Repr

/-- Truthiness of `record.get('targets', None)`: `False` for a missing key
and for an empty list. -/
def EdgeRecord.hasTargets (r : EdgeRecord) : Bool :=
  match r.targets with
  | none => false
  | some ts => !ts.isEmpty

/-- `_stream_records` (lines 442-455): stream the records of one file,
skipping records with empty targets, and count total and skipped records.
Returns (kept records in order, skip count, total count). -/
def streamRecords : List EdgeRecord → List EdgeRecord × Nat × Nat
  | [] => ([], 0, 0)
  | r :: rest =>
    let (kept, skip, total) := streamRecords rest
    if r.hasTargets then (r :: kept, skip, total + 1)
    else (kept, skip + 1, total + 1)

/-- `load_data` (lines 479-488) materializes `_stream_records` per split. -/
def edgeLoadSplit (records : List EdgeRecord) : List EdgeRecord :=
  (streamRecords records).1

/-- `EdgeProbingTask.get_num_examples` (lines 497-502): `len(split_text)`. -/
def edgeGetNumExamples (splitText : List EdgeRecord) : Nat :=
  splitText.length

/-- `_make_span_field(s, text_field, offset)` (lines 504-505) stores the span
`(s[0] + offset, s[1] - 1 + offset)` (SpanField takes inclusive indices). -/
def makeSpanField (s : Int × Int) (offset : Int) : Int × Int :=
  (s.1 + offset, s.2 - 1 + offset)

/-- The list of `span1` fields produced by `make_instance` (line 518):
`[self._make_span_field(t['span1'], text_field, 1) for t in record['targets']]`. -/
def makeInstanceSpan1s (targets : List EdgeTarget) : List (Int × Int) :=
  targets.map (fun t => makeSpanField t.span1 1)

/-- The list of `span2` fields produced by `make_instance` (line 521),
emitted only when `not self.single_sided`. -/
def makeInstanceSpan2s (targets : List EdgeTarget) : List (Int × Int) :=
  targets.map (fun t => makeSpanField t.span2 1)

/-! ## Language modeling (`LanguageModelingTask`, lines 635-728) -/

/-- The model-ready unit built by `LanguageModelingTask.process_split`
(lines 699-708): the input sentence, the forward target sequence and the
backward target sequence. -/
structure LMInstance where
  input : List String
  targs : List String
  targs_b : List String
  deriving DecidableEq, Repr

/-- `_make_instance(sent)` (lines 699-708):
`targs = sent[1:] + [sent[0]]` and `targs_b = [sent[-1]] + sent[:-1]`.
Indexing an empty sentence raises in Python, modelled by `none`. -/
def lmMakeInstance : List String → Option LMInstance
  | [] => none
  | x :: xs =>
    some { input := x :: xs,
           targs := xs ++ [x],
           targs_b := (x :: xs).getLast (List.cons_ne_nil x xs) :: (x :: xs).dropLast }

/-- `LanguageModelingTask.process_split` (lines 693-710) maps
`_make_instance` over the sentences of the split. -/
def lmProcessSplit (split : List (List String)) : List (Option LMInstance) :=
  split.map lmMakeInstance

/-! ## Python string primitives

Executable models of the `str` builtins the module uses.  Whitespace is
restricted to the ASCII whitespace occurring in the data files. -/

/-- Characters treated as whitespace by Python `str.strip()`/`str.split()`. -/
def pyIsSpace (c : Char) : Bool :=
  c = ' ' || c = '\t' || c = '\n' || c = '\r'

/-- Python `s.strip()`. -/
def pyStrip (s : String) : String :=
  ⟨((s.data.dropWhile pyIsSpace).reverse.dropWhile pyIsSpace).reverse⟩

/-- Python `s.split(sep)` for a one-character separator: empty fields kept. -/
def pySplitChar (sep : Char) (s : String) : List String :=
  (s.data.splitOn sep).map (fun l => (⟨l⟩ : String))

/-- Python `s.split()` (no argument): split on whitespace runs, no empty
fields (restricted to blanks, the separator in the tokenized data). -/
def pyWords (s : String) : List String :=
  ((s.data.splitOn ' ').map (fun l => (⟨l⟩ : String))).filter (fun t => t ≠ "")

/-- One pass of Python `s.replace(pat, rep)` over the character list; `fuel`
bounds the recursion (callers pass the list length, which suffices because
every step consumes at least one character). -/
def replaceChars (pat rep : List Char) : Nat → List Char → List Char
  | _, [] => []
  | 0, l => l
  | fuel + 1, c :: rest =>
    if !pat.isEmpty && pat.isPrefixOf (c :: rest) then
      rep ++ replaceChars pat rep fuel ((c :: rest).drop pat.length)
    else c :: replaceChars pat rep fuel rest

/-- Python `s.replace(pat, rep)`. -/
def pyReplace (s pat rep : String) : String :=
  ⟨replaceChars pat.data rep.data s.data.length s.data⟩

/-- Python `s.startswith(pre)`. -/
def pyStartsWith (s pre : String) : Bool :=
  pre.data.isPrefixOf s.data

/-- Modelled from the spec: `utils.process_sentence` lives outside `src/`.
Spec §6 describes it as "a sentence-processing function taking raw text +
max length + optional sentinel tokens → ordered token sequence" and §8 shows
its output as N tokens plus 2 sentinels; so: tokenize on whitespace,
truncate to `maxSeqLen` tokens, wrap with sentinel tokens. -/
def process_sentence (maxSeqLen : Nat) (s : String) : List String :=
  "<SOS>" :: ((pyWords s).take maxSeqLen ++ ["<EOS>"])

/-! ## `get_sentences` for streaming variants -/

/-- Loop shape shared by every streaming `get_sentences` (edge probing lines
541-548, language modeling 719-728, Reddit 844-853 and 918-927, machine
translation 1826-1833, Wiki103 classification 1967-1975, DisSent 2098-2107):
walk `files_by_split` in order, skip splits whose name starts with "test",
and yield whatever the per-variant loader produces for each kept split. -/
def streamSentences {α β : Type} (load : α → List β) : List (String × α) → List β
  | [] => []
  | (split, d) :: rest =>
    if pyStartsWith split "test" then streamSentences load rest
    else load d ++ streamSentences load rest

/-- `EdgeProbingTask.get_sentences` (lines 541-548): yields
`record["text"].split()` for every record of every non-test split. -/
def edgeGetSentences (iters : List (String × List EdgeRecord)) : List (List String) :=
  streamSentences (fun recs => recs.map (fun r => pyWords r.text)) iters

/-- `LanguageModelingTask.load_data` (lines 681-691): strip each line, skip
empty ones, process the rest.  `ps` is the external `process_sentence`
collaborator, closed over `max_seq_len`. -/
def lmLoadData (ps : String → List String) (lines : List String) : List (List String) :=
  lines.filterMap (fun row =>
    let toks := pyStrip row
    if toks = "" then none else some (ps toks))

/-- `LanguageModelingTask.get_sentences` (lines 719-728). -/
def lmGetSentences (ps : String → List String)
    (files : List (String × List String)) : List (List String) :=
  streamSentences (lmLoadData ps) files

/-- `RedditTask.load_data` (lines 832-842): tab-split each stripped line,
skip rows with fewer than four fields or an empty third or fourth field, and
yield the processed pair with target `1`. -/
def redditLoadData (ps : String → List String) (lines : List String) :
    List (List String × List String × Nat) :=
  lines.filterMap (fun line =>
    let row := pySplitChar '\t' (pyStrip line)
    if row.length < 4 || row.getD 2 "" = "" || row.getD 3 "" = "" then none
    else some (ps (row.getD 2 ""), ps (row.getD 3 ""), 1))

/-- `RedditTask.get_sentences` (lines 844-853): yields `sent1` then `sent2`
for every loaded row of every non-test split (`RedditPairClassificationTask`
repeats the same shape at lines 918-927). -/
def redditGetSentences (ps : String → List String)
    (files : List (String × List String)) : List (List String) :=
  streamSentences
    (fun lines => (redditLoadData ps lines).flatMap (fun t => [t.1, t.2.1])) files

/-- `DisSentTask.load_data` (lines 2086-2096); `pyInt` models Python
`int(...)` on the label column. -/
def dissentLoadData (ps : String → List String) (pyInt : String → Int)
    (lines : List String) : List (List String × List String × Int) :=
  lines.filterMap (fun line =>
    let row := pySplitChar '\t' (pyStrip line)
    if row.length ≠ 3 || row.getD 0 "" = "" || row.getD 1 "" = "" || row.getD 2 "" = ""
    then none
    else some (ps (row.getD 0 ""), ps (row.getD 1 ""), pyInt (row.getD 2 "")))

/-- `DisSentTask.get_sentences` (lines 2098-2107). -/
def dissentGetSentences (ps : String → List String) (pyInt : String → Int)
    (files : List (String × List String)) : List (List String) :=
  streamSentences
    (fun lines => (dissentLoadData ps pyInt lines).flatMap (fun t => [t.1, t.2.1])) files

/-- `MTTask.load_data` (lines 1810-1824): source and target columns are
processed with different sentinel configurations (`psSrc`, `psTgt`). -/
def mtLoadData (psSrc psTgt : String → List String) (lines : List String) :
    List (List String × List String) :=
  lines.filterMap (fun line =>
    let row := pySplitChar '\t' (pyStrip line)
    if row.length < 2 || row.getD 0 "" = "" || row.getD 1 "" = "" then none
    else some (psSrc (row.getD 0 ""), psTgt (row.getD 1 "")))

/-- `MTTask.get_sentences` (lines 1826-1833): `yield from self.load_data(path)`
for every non-test split (the yielded items are source/target pairs). -/
def mtGetSentences (psSrc psTgt : String → List String)
    (files : List (String × List String)) : List (List String × List String) :=
  streamSentences (mtLoadData psSrc psTgt) files

/-! ## WikiText language modeling (`WikiTextLMTask`, lines 731-755) -/

def UNK_TOK_ALLENNLP : String := "@@UNKNOWN@@"

def UNK_TOK_ATOMIC : String := "UNKNOWN"

/-- `_atomic_tokenize` (lines 71-79): replace every non-atomic unknown-token
spelling by the atomic one, tokenize, then substitute the first non-atomic
spelling back for each atomic token. -/
def atomicTokenize (ps : String → List String) (sent : String)
    (atomicTok : String) (nonatomicToks : List String) : List String :=
  let replaced := nonatomicToks.foldl (fun s t => pyReplace s t atomicTok) sent
  (ps replaced).map (fun t => if t = atomicTok then nonatomicToks.headI else t)

/-- `WikiTextLMTask.load_data` (lines 739-755): stream lines, drop blank
lines, drop a line when its *processed token sequence* contains at least two
`"="` tokens or the stripped line has fewer than `min_seq_len + 2`
characters, and yield the processed sentence otherwise
(`Wiki103Classification.load_data`, lines 1953-1965, is identical). -/
def wikiLoadData (ps : String → List String) (minSeqLen : Nat) :
    List String → List (List String)
  | [] => []
  | row :: rest =>
    let toks := pyStrip row
    if toks = "" then wikiLoadData ps minSeqLen rest
    else
      let sent := atomicTokenize ps toks UNK_TOK_ATOMIC [UNK_TOK_ALLENNLP, "<unk>"]
      if 2 ≤ sent.count "=" || toks.length < minSeqLen + 2 then
        wikiLoadData ps minSeqLen rest
      else sent :: wikiLoadData ps minSeqLen rest

/-- The per-line filter the amended C7 states: a line is dropped iff its
stripped form is empty, or its processed token sequence contains at least
two `"="` tokens, or the stripped line has fewer than `min_seq_len + 2`
characters; every other line yields its processed sentence. -/
def wikiKeepLine (ps : String → List String) (minSeqLen : Nat) (row : String) :
    Option (List String) :=
  let toks := pyStrip row
  if toks = "" then none
  else
    let sent := atomicTokenize ps toks UNK_TOK_ATOMIC [UNK_TOK_ALLENNLP, "<unk>"]
    if 2 ≤ sent.count "=" ∨ toks.length < minSeqLen + 2 then none
    else some sent

/-- `Wiki103Classification.get_sentences` (lines 1967-1975); the constructor
sets `min_seq_len = 0` (line 1945). -/
def wiki103ClassifGetSentences (ps : String → List String)
    (files : List (String × List String)) : List (List String) :=
  streamSentences (fun lines => wikiLoadData ps 0 lines) files

/-! ## Edge-probing scorers and metrics (lines 434-440 and 550-559) -/

/-- The metric-aggregator kinds instantiated by `EdgeProbingTask.__init__`. -/
inductive ScorerKind where
  | fastMatthews
  | booleanAccuracy
  | f1Measure (positiveLabel : Nat)
  deriving DecidableEq, Repr

/-- The aggregators attached to every edge-probing task (lines 436-438):
`mcc_scorer = FastMatthews()`, `acc_scorer = BooleanAccuracy()`,
`f1_scorer = F1Measure(positive_label=1)`. -/
def edgeProbingScorers : List ScorerKind :=
  [.fastMatthews, .booleanAccuracy, .f1Measure 1]

/-- `EdgeProbingTask.get_metrics` (lines 550-559) with the scorer read-outs
passed in; the `F1Measure` read-out is the triple (precision, recall, f1).
`V` abstracts the float values. -/
def edgeGetMetrics {V : Type} (mcc acc : V) (f1m : V × V × V) : List (String × V) :=
  [("mcc", mcc), ("acc", acc),
   ("precision", f1m.1), ("recall", f1m.2.1), ("f1", f1m.2.2)]

/-! ## Diagnostic task (`MultiNLIDiagnosticTask`, lines 1357-1519) -/

/-- Field values of a diagnostic Instance. -/
inductive DiagField where
  | label (v : Int)
  | text (toks : List String)
  | meta (s : String)
  deriving DecidableEq, Repr

/-- `" ".join(l)`. -/
def joinWords : List String → String
  | [] => ""
  | [x] => x
  | x :: y :: rest => x ++ " " ++ joinWords (y :: rest)

/-- One loaded row of the diagnostic split: two token sequences, label,
positional index, and the four tag-index arrays. -/
structure DiagRow where
  input1 : List String
  input2 : List String
  label : Int
  idx : Int
  lex_sem : List Nat
  pr_ar_str : List Nat
  logic : List Nat
  knowledge : List Nat
  deriving DecidableEq, Repr

/-- The four index→tag-name tables produced by `load_diagnostic_tsv`
(lines 1393-1396). -/
structure DiagDicts where
  lexSemDic : List (Nat × String)
  prArStrDic : List (Nat × String)
  logicDic : List (Nat × String)
  knowledgeDic : List (Nat × String)
  deriving DecidableEq, Repr

/-- The per-tag binary presence fields emitted by `create_labels_from_tags`
(lines 1464-1469): one field per non-zero index of the dimension's table. -/
def tagFields (ixToTagDict : List (Nat × String)) (tagArr : List Nat)
    (tagGroup : String) : List (String × DiagField) :=
  ixToTagDict.filterMap (fun p =>
    if p.1 = 0 then none
    else some (tagGroup ++ "__" ++ p.2,
               .label (if p.1 ∈ tagArr then 1 else 0)))

/-- `create_labels_from_tags` (lines 1457-1470): the "any tag present" field
named after the dimension (`1 if len(tag_arr) != 0 else 0`), followed by the
per-tag presence fields. -/
def createLabelsFromTags (ixToTagDict : List (Nat × String)) (tagArr : List Nat)
    (tagGroup : String) : List (String × DiagField) :=
  (tagGroup, .label (if tagArr.length ≠ 0 then 1 else 0)) ::
    tagFields ixToTagDict tagArr tagGroup

/-- `_make_instance` (lines 1472-1490): the fields of one diagnostic
Instance, in assignment order. -/
def diagMakeInstance (d : DiagDicts) (r : DiagRow) : List (String × DiagField) :=
  [("input1", .text r.input1), ("input2", .text r.input2),
   ("labels", .label r.label), ("idx", .label r.idx),
   ("sent1_str", .meta (joinWords ((r.input1.drop 1).dropLast))),
   ("sent2_str", .meta (joinWords ((r.input2.drop 1).dropLast)))]
  ++ createLabelsFromTags d.lexSemDic r.lex_sem "lex_sem"
  ++ createLabelsFromTags d.prArStrDic r.pr_ar_str "pr_ar_str"
  ++ createLabelsFromTags d.logicDic r.logic "logic"
  ++ createLabelsFromTags d.knowledgeDic r.knowledge "knowledge"

/-- Reading a key from a Python dict built by successive assignments: the
*last* assignment wins, so later entries of the assignment-ordered list
shadow earlier ones. -/
def dictGet : List (String × DiagField) → String → Option DiagField
  | [], _ => none
  | (k, v) :: rest, key =>
    match dictGet rest key with
    | some w => some w
    | none => if key = k then some v else none

/-! ## `val_metric` vs `get_metrics` across the task variants (C3) -/

/-- The task classes this module constructs, one constructor per class with
a distinct resolved (`val_metric`, `get_metrics`) combination; concrete
registered tasks resolve to these (e.g. `SSTTask → singleClassification`,
the `mnli-*` genre tasks → `mnliSingleGenre`, `JOCITask →
pairOrdinalRegression`, `CCGTaggingTask → tagging`, the `wmt*`, `reddit_s2s`
and `wiki103_s2s` tasks → `mt`, the recast/NLI tasks →
`pairClassification`). -/
inductive TaskClass where
  | singleClassification
  | pairClassification
  | edgeProbing
  | pairRegression
  | pairOrdinalRegression
  | sequenceGeneration
  | languageModeling
  | reddit
  | redditPairClassification
  | cola
  | qqp
  | mnliSingleGenre
  | mrpc
  | stsb
  | mnliDiagnostic
  | mt
  | wiki103Classification
  | dissent
  | grounded
  | groundedSW
  | tagging
  deriving DecidableEq, Repr

/-- Scorer read-outs and collaborator state that the various `get_metrics`
bodies consume: up to five scalar read-outs, `math.exp`, the name-indexed
diagnostic scorer read-outs, and the diagnostic tag tables. -/
structure MetricsEnv where
  exp : ℚ → ℚ
  v1 : ℚ
  v2 : ℚ
  v3 : ℚ
  v4 : ℚ
  v5 : ℚ
  scorerVal : String → ℚ
  diagDicts : DiagDicts

/-- `SingleClassificationTask.get_metrics` (lines 236-239); identical bodies
at 257-260 (pair classification), 877-880 and 951-954 (Reddit variants),
1132-1134 (single-genre MNLI) and 2487-2490 (tagging). -/
def accuracyGetMetrics (acc : ℚ) : List (String × ℚ) :=
  [("accuracy", acc)]

/-- `PairRegressionTask.get_metrics` (lines 573-576). -/
def pairRegressionGetMetrics (mse : ℚ) : List (String × ℚ) :=
  [("mse", mse)]

/-- `PairOrdinalRegressionTask.get_metrics` (lines 597-602). -/
def pairOrdinalGetMetrics (mse spearmanr : ℚ) : List (String × ℚ) :=
  [("1-mse", 1 - mse), ("mse", mse), ("spearmanr", spearmanr)]

/-- `SequenceGenerationTask.get_metrics` (lines 622-625). -/
def sequenceGenerationGetMetrics (bleu : ℚ) : List (String × ℚ) :=
  [("bleu", bleu)]

/-- `LanguageModelingTask.get_metrics` (lines 673-679). -/
def lmGetMetrics (exp : ℚ → ℚ) (nll : ℚ) : List (String × ℚ) :=
  [("perplexity", exp nll)]

/-- `CoLATask.get_metrics` (lines 1020-1022). -/
def colaGetMetrics (mcc acc : ℚ) : List (String × ℚ) :=
  [("mcc", mcc), ("accuracy", acc)]

/-- `QQPTask.get_metrics` (lines 1051-1056); `MRPCTask.get_metrics`
(lines 1233-1238) is identical. -/
def qqpGetMetrics (acc pcs rcl f1 : ℚ) : List (String × ℚ) :=
  [("acc_f1", (acc + f1) / 2), ("accuracy", acc), ("f1", f1),
   ("precision", pcs), ("recall", rcl)]

/-- `STSBTask.get_metrics` (lines 1271-1275). -/
def stsbGetMetrics (pearsonr spearmanr : ℚ) : List (String × ℚ) :=
  [("corr", (pearsonr + spearmanr) / 2),
   ("pearsonr", pearsonr), ("spearmanr", spearmanr)]

/-- The `collect_metrics` helper of `MultiNLIDiagnosticTask.get_metrics`
(lines 1502-1513): index 0 reports the whole dimension, other indices the
individual tags. -/
def diagCollectMetrics (scorerVal : String → ℚ) (dict : List (Nat × String))
    (tagGroup : String) : List (String × ℚ) :=
  dict.map (fun p =>
    if p.1 = 0 then (tagGroup, scorerVal ("scorer__" ++ tagGroup))
    else (tagGroup ++ "__" ++ p.2,
          scorerVal ("scorer__" ++ tagGroup ++ "__" ++ p.2)))

/-- `MultiNLIDiagnosticTask.get_metrics` (lines 1496-1519): a hard-coded
`"accuracy"` entry followed by the four dimensions' collected metrics. -/
def diagGetMetrics (scorerVal : String → ℚ) (d : DiagDicts) : List (String × ℚ) :=
  ("accuracy", 0)
    :: (diagCollectMetrics scorerVal d.lexSemDic "lex_sem"
        ++ diagCollectMetrics scorerVal d.prArStrDic "pr_ar_str"
        ++ diagCollectMetrics scorerVal d.logicDic "logic"
        ++ diagCollectMetrics scorerVal d.knowledgeDic "knowledge")

/-- `MTTask.get_metrics` (lines 1855-1862). -/
def mtGetMetrics (exp : ℚ → ℚ) (avgNll unkRatio : ℚ) : List (String × ℚ) :=
  [("perplexity", exp avgNll), ("bleu_score", 0),
   ("unk_ratio_macroavg", unkRatio)]

/-- `GroundedTask.get_metrics` (lines 2211-2215); `GroundedSWTask`
(lines 2321-2325) is identical. -/
def groundedGetMetrics (m : ℚ) : List (String × ℚ) :=
  [("metric", m)]

/-- The `get_metrics` dictionary each class produces, resolved through the
inheritance chains of the source. -/
def classGetMetrics (env : MetricsEnv) : TaskClass → List (String × ℚ)
  | .singleClassification => accuracyGetMetrics env.v1
  | .pairClassification => accuracyGetMetrics env.v1
  | .edgeProbing => edgeGetMetrics env.v1 env.v2 (env.v3, env.v4, env.v5)
  | .pairRegression => pairRegressionGetMetrics env.v1
  | .pairOrdinalRegression => pairOrdinalGetMetrics env.v1 env.v2
  | .sequenceGeneration => sequenceGenerationGetMetrics env.v1
  | .languageModeling => lmGetMetrics env.exp env.v1
  | .reddit => accuracyGetMetrics env.v1
  | .redditPairClassification => accuracyGetMetrics env.v1
  | .cola => colaGetMetrics env.v1 env.v2
  | .qqp => qqpGetMetrics env.v1 env.v2 env.v3 env.v4
  | .mnliSingleGenre => accuracyGetMetrics env.v1
  | .mrpc => qqpGetMetrics env.v1 env.v2 env.v3 env.v4
  | .stsb => stsbGetMetrics env.v1 env.v2
  | .mnliDiagnostic => diagGetMetrics env.scorerVal env.diagDicts
  | .mt => mtGetMetrics env.exp env.v1 env.v2
  | .wiki103Classification => accuracyGetMetrics env.v1
  | .dissent => accuracyGetMetrics env.v1
  | .grounded => groundedGetMetrics env.v1
  | .groundedSW => groundedGetMetrics env.v1
  | .tagging => accuracyGetMetrics env.v1

/-- The `val_metric` each class sets (source line cited per case), resolved
through the inheritance chains: classes that do not set one inherit
`"%s_accuracy"` from their classification base (line 225 / 254). -/
def classValMetric (name : String) : TaskClass → String
  | .singleClassification => name ++ "_accuracy"        -- line 225
  | .pairClassification => name ++ "_accuracy"          -- line 254
  | .edgeProbing => name ++ "_f1"                       -- line 439
  | .pairRegression => name ++ "_mse"                   -- line 570
  | .pairOrdinalRegression => name ++ "_1-mse"          -- line 594
  | .sequenceGeneration => name ++ "_bleu"              -- line 617
  | .languageModeling => name ++ "_perplexity"          -- line 655
  | .reddit => name ++ "_accuracy"                      -- line 819
  | .redditPairClassification => name ++ "_accuracy"    -- line 893
  | .cola => name ++ "_mcc"                             -- line 1001
  | .qqp => name ++ "_acc_f1"                           -- line 1035
  | .mnliSingleGenre => name ++ "_accuracy"             -- inherited, line 254
  | .mrpc => name ++ "_acc_f1"                          -- line 1217
  | .stsb => name ++ "_corr"                            -- line 1255
  | .mnliDiagnostic => name ++ "_accuracy"              -- inherited, line 254
  | .mt => name ++ "_perplexity"                        -- line 1785
  | .wiki103Classification => name ++ "_accuracy"       -- line 1939
  | .dissent => name ++ "_accuracy"                     -- inherited, line 254
  | .grounded => name ++ "_metric"                      -- line 2186
  | .groundedSW => name ++ "_metric"                    -- line 2296
  | .tagging => name ++ "_accuracy"                     -- line 2472

end Jiant

/-! ## Theorems -/

namespace Jiant

/-- Streaming keeps exactly the records whose `targets` list is present and
non-empty, in their original order. -/
theorem streamRecords_kept (rs : List EdgeRecord) :
    (streamRecords rs).1 = rs.filter EdgeRecord.hasTargets := by
  induction rs with
  | nil => rfl
  | cons r rest ih =>
    simp only [streamRecords, List.filter]
    cases h : r.hasTargets <;> simp [h, ih]

/-- The skip and total counters of `_stream_records` count the dropped
records and all records respectively. -/
theorem streamRecords_counts (rs : List EdgeRecord) :
    (streamRecords rs).2.1 = rs.countP (fun r => !r.hasTargets) ∧
    (streamRecords rs).2.2 = rs.length := by
  induction rs with
  | nil => exact ⟨rfl, rfl⟩
  | cons r rest ih =>
    simp only [streamRecords, List.countP_cons, List.length_cons]
    cases h : r.hasTargets <;> simp [h, ih.1, ih.2]

/-- C1: for every edge-probing split, loading drops exactly the records whose
`targets` list is missing or empty, preserving the order of the remaining
records, and `get_num_examples` on the loaded split returns the number of
records that survive this filtering (the kept count, not the raw count). -/
theorem edge_load_filters_empty_targets (rs : List EdgeRecord) :
    edgeLoadSplit rs = rs.filter EdgeRecord.hasTargets ∧
    edgeGetNumExamples (edgeLoadSplit rs) = rs.countP EdgeRecord.hasTargets ∧
    edgeGetNumExamples (edgeLoadSplit rs) = rs.length - rs.countP (fun r => !r.hasTargets) := by
  have hcount : edgeGetNumExamples (edgeLoadSplit rs) = rs.countP EdgeRecord.hasTargets := by
    simp only [edgeGetNumExamples, edgeLoadSplit, streamRecords_kept]
    exact (List.countP_eq_length_filter _ _).symm
  refine ⟨streamRecords_kept rs, hcount, ?_⟩
  have h := List.length_eq_countP_add_countP (p := EdgeRecord.hasTargets) (l := rs)
  have h2 : (fun (a : EdgeRecord) => decide ¬a.hasTargets = true)
      = (fun r => !r.hasTargets) := by
    funext a
    cases ha : a.hasTargets <;> simp [ha]
  rw [h2] at h
  rw [hcount]
  omega

/-- C2: for every non-empty sentence of length `n` in a language-modeling
split, `process_split` produces an instance whose forward target at position
`i` is the input token at position `(i+1) % n` and whose backward target at
position `i` is the input token at position `(i-1) mod n` (written
`(i + n - 1) % n` to stay in the naturals). -/
theorem lm_targets_are_modular_shifts (split : List (List String))
    (sent : List String) (hs : sent ∈ split) (i : Nat)
    (hi : i < sent.length) :
    ∃ inst : LMInstance, some inst ∈ lmProcessSplit split ∧
      lmMakeInstance sent = some inst ∧
      inst.input = sent ∧
      inst.targs.length = sent.length ∧
      inst.targs_b.length = sent.length ∧
      inst.targs[i]? = sent[(i + 1) % sent.length]? ∧
      inst.targs_b[i]? = sent[(i + sent.length - 1) % sent.length]? := by
  match sent with
  | [] => simp at hi
  | x :: xs =>
    refine ⟨_, List.mem_map_of_mem lmMakeInstance hs, rfl, rfl, by simp, by simp, ?_, ?_⟩
    · -- forward: (xs ++ [x])[i]? = (x :: xs)[(i+1) % (xs.length+1)]?
      by_cases hlt : i < xs.length
      · rw [List.getElem?_append]
        simp only [hlt, if_true]
        have hmod : (i + 1) % (x :: xs).length = i + 1 := by
          apply Nat.mod_eq_of_lt
          simp
          omega
        rw [hmod]
        simp
      · have hi' : i = xs.length := by
          simp at hi
          omega
        subst hi'
        rw [List.getElem?_append_right (Nat.le_refl _)]
        have hmod : (xs.length + 1) % (x :: xs).length = 0 := by
          simp [Nat.mod_self]
        rw [hmod]
        simp
    · -- backward: (getLast :: dropLast)[i]? = (x :: xs)[(i + n - 1) % n]?
      match i with
      | 0 =>
        have hmod : (0 + (x :: xs).length - 1) % (x :: xs).length = xs.length := by
          simp only [Nat.zero_add, List.length_cons, Nat.add_sub_cancel]
          exact Nat.mod_eq_of_lt (by omega)
        rw [hmod]
        have hlast := List.getLast?_eq_getElem? (x :: xs)
        rw [List.getLast?_eq_getLast (x :: xs) (List.cons_ne_nil x xs)] at hlast
        simp only [List.length_cons, Nat.add_sub_cancel] at hlast
        simp [← hlast]
      | k + 1 =>
        have hk : k < xs.length := by
          simp at hi
          omega
        have hmod : (k + 1 + (x :: xs).length - 1) % (x :: xs).length = k := by
          have h1 : k + 1 + (x :: xs).length - 1 = k + (x :: xs).length := by omega
          rw [h1, Nat.add_mod_right]
          exact Nat.mod_eq_of_lt (by simp; omega)
        rw [hmod]
        simp only [List.getElem?_cons_succ]
        rw [List.dropLast_eq_take, List.getElem?_take_of_lt]
        simp only [List.length_cons, Nat.add_sub_cancel]
        exact hk

/-- Witness for C2 at a concrete one-sentence split. -/
theorem lm_targets_are_modular_shifts_witness :
    (["a", "b", "c"] : List String) ∈ [["a", "b", "c"]] ∧
    (2 : Nat) < (["a", "b", "c"] : List String).length ∧
    ∃ inst : LMInstance, some inst ∈ lmProcessSplit [["a", "b", "c"]] ∧
      lmMakeInstance ["a", "b", "c"] = some inst ∧
      inst.input = ["a", "b", "c"] ∧
      inst.targs.length = 3 ∧
      inst.targs_b.length = 3 ∧
      inst.targs[2]? = (["a", "b", "c"] : List String)[(2 + 1) % 3]? ∧
      inst.targs_b[2]? = (["a", "b", "c"] : List String)[(2 + 3 - 1) % 3]? :=
  ⟨by decide, by decide,
   lm_targets_are_modular_shifts [["a", "b", "c"]] ["a", "b", "c"]
     (by decide) 2 (by decide)⟩

/-- Every element produced by the shared `get_sentences` loop comes from a
split whose name does not start with "test". -/
theorem streamSentences_sourced {α β : Type} (load : α → List β)
    (files : List (String × α)) (b : β) (h : b ∈ streamSentences load files) :
    ∃ p ∈ files, pyStartsWith p.1 "test" = false ∧ b ∈ load p.2 := by
  induction files with
  | nil => simp [streamSentences] at h
  | cons p rest ih =>
    obtain ⟨split, d⟩ := p
    by_cases hs : pyStartsWith split "test"
    · simp only [streamSentences, hs, if_true] at h
      obtain ⟨q, hq, hh⟩ := ih h
      exact ⟨q, List.mem_cons_of_mem _ hq, hh⟩
    · simp only [streamSentences, hs, if_false] at h
      rcases List.mem_append.1 h with hb | hb
      · exact ⟨(split, d), List.mem_cons_self _ _, by simpa using hs, hb⟩
      · obtain ⟨q, hq, hh⟩ := ih hb
        exact ⟨q, List.mem_cons_of_mem _ hq, hh⟩

/-- C4: for each streaming task variant — edge probing, language modeling,
Reddit, DisSent, machine translation, Wiki103 classification —
`get_sentences` never yields an item sourced from a split whose name begins
with "test", and calling it twice without mutating task state yields the
same sequence both times (each call rebuilds a fresh pass over the unchanged
`files_by_split`, which the purity of the embedding renders definitional). -/
theorem get_sentences_test_exclusion
    (itersE : List (String × List EdgeRecord))
    (ps psT : String → List String) (pyInt : String → Int)
    (filesLM filesR filesD filesMT filesW : List (String × List String)) :
    ((∀ s ∈ edgeGetSentences itersE, ∃ p ∈ itersE,
        pyStartsWith p.1 "test" = false ∧ s ∈ p.2.map (fun r => pyWords r.text)) ∧
      edgeGetSentences itersE = edgeGetSentences itersE) ∧
    ((∀ s ∈ lmGetSentences ps filesLM, ∃ p ∈ filesLM,
        pyStartsWith p.1 "test" = false ∧ s ∈ lmLoadData ps p.2) ∧
      lmGetSentences ps filesLM = lmGetSentences ps filesLM) ∧
    ((∀ s ∈ redditGetSentences ps filesR, ∃ p ∈ filesR,
        pyStartsWith p.1 "test" = false ∧
          s ∈ (redditLoadData ps p.2).flatMap (fun t => [t.1, t.2.1])) ∧
      redditGetSentences ps filesR = redditGetSentences ps filesR) ∧
    ((∀ s ∈ dissentGetSentences ps pyInt filesD, ∃ p ∈ filesD,
        pyStartsWith p.1 "test" = false ∧
          s ∈ (dissentLoadData ps pyInt p.2).flatMap (fun t => [t.1, t.2.1])) ∧
      dissentGetSentences ps pyInt filesD = dissentGetSentences ps pyInt filesD) ∧
    ((∀ s ∈ mtGetSentences ps psT filesMT, ∃ p ∈ filesMT,
        pyStartsWith p.1 "test" = false ∧ s ∈ mtLoadData ps psT p.2) ∧
      mtGetSentences ps psT filesMT = mtGetSentences ps psT filesMT) ∧
    ((∀ s ∈ wiki103ClassifGetSentences ps filesW, ∃ p ∈ filesW,
        pyStartsWith p.1 "test" = false ∧ s ∈ wikiLoadData ps 0 p.2) ∧
      wiki103ClassifGetSentences ps filesW = wiki103ClassifGetSentences ps filesW) :=
  ⟨⟨fun s hs => streamSentences_sourced _ _ s hs, rfl⟩,
   ⟨fun s hs => streamSentences_sourced _ _ s hs, rfl⟩,
   ⟨fun s hs => streamSentences_sourced _ _ s hs, rfl⟩,
   ⟨fun s hs => streamSentences_sourced _ _ s hs, rfl⟩,
   ⟨fun s hs => streamSentences_sourced _ _ s hs, rfl⟩,
   ⟨fun s hs => streamSentences_sourced _ _ s hs, rfl⟩⟩

/-- Witness for C4 at a concrete two-split edge-probing state. -/
theorem get_sentences_test_exclusion_witness :
    ∃ p ∈ [("train", [EdgeRecord.mk "hello world" none]),
           ("test", [EdgeRecord.mk "secret stuff" none])],
      pyStartsWith p.1 "test" = false ∧
      ["hello", "world"] ∈ p.2.map (fun r => pyWords r.text) :=
  ((get_sentences_test_exclusion
      [("train", [EdgeRecord.mk "hello world" none]),
       ("test", [EdgeRecord.mk "secret stuff" none])]
      (process_sentence 3) (process_sentence 3) (fun _ => 0)
      [] [] [] [] []).1.1) ["hello", "world"] (by decide)

/-- The WikiText loader is exactly the per-line filter of the amended C7:
sentences are yielded in line order, a line surviving iff its stripped form
is non-empty, its processed token sequence has fewer than two `"="` tokens,
and the stripped line has at least `min_seq_len + 2` characters.  The markup
filter inspects the processed token sequence, not the raw surface form. -/
theorem wikiLoadData_eq_filterMap (ps : String → List String) (minSeqLen : Nat)
    (lines : List String) :
    wikiLoadData ps minSeqLen lines = lines.filterMap (wikiKeepLine ps minSeqLen) := by
  induction lines with
  | nil => rfl
  | cons row rest ih =>
    simp only [wikiLoadData, wikiKeepLine, List.filterMap_cons]
    by_cases h0 : pyStrip row = ""
    · simp [h0, ih]
    · simp only [h0, if_false]
      by_cases h1 : 2 ≤ (atomicTokenize ps (pyStrip row) UNK_TOK_ATOMIC
          [UNK_TOK_ALLENNLP, "<unk>"]).count "=" ∨ (pyStrip row).length < minSeqLen + 2
      · have hb : (2 ≤ (atomicTokenize ps (pyStrip row) UNK_TOK_ATOMIC
            [UNK_TOK_ALLENNLP, "<unk>"]).count "="
            || (pyStrip row).length < minSeqLen + 2) = true := by
          simpa [Bool.or_eq_true, decide_eq_true_eq] using h1
        simp [hb, h1, ih]
      · have hb : (2 ≤ (atomicTokenize ps (pyStrip row) UNK_TOK_ATOMIC
            [UNK_TOK_ALLENNLP, "<unk>"]).count "="
            || (pyStrip row).length < minSeqLen + 2) = false := by
          simpa [Bool.or_eq_true, decide_eq_true_eq] using h1
        simp [hb, h1, ih]

/-- Counterexample to C7 as stated: the line `"a b c d = ="` contains two
`'='` characters in its surface form, yet with the spec-modelled sentence
processor at `max_seq_len = 3` (truncation keeps the first three tokens) the
loader yields a sentence for it rather than filtering it out. -/
theorem wiki_markup_surface_counterexample :
    2 ≤ ("a b c d = =").data.count '=' ∧
    wikiLoadData (process_sentence 3) 0 ["a b c d = ="]
      = [["<SOS>", "a", "b", "c", "<EOS>"]] := by
  constructor
  · decide
  · decide

/-- C5: registering the same name twice leaves the entry recorded by the
second application only, and every other name is untouched. -/
theorem register_task_last_wins {C K : Type}
    (name p₁ p₂ : String) (kw₁ kw₂ : List (String × K)) (c₁ c₂ : C)
    (reg : Registry C K) :
    (register_task name p₂ kw₂ c₂ (register_task name p₁ kw₁ c₁ reg)) name
        = some (mkRegEntry c₂ p₂ kw₂) ∧
    ∀ m : String, m ≠ name →
      (register_task name p₂ kw₂ c₂ (register_task name p₁ kw₁ c₁ reg)) m = reg m := by
  constructor
  · simp [register_task]
  · intro m hm
    simp [register_task, hm]

/-- Witness for C5 at a concrete registry. -/
theorem register_task_last_wins_witness :
    (register_task "sst" "SST-2b/" [] 1
        (register_task "sst" "SST-2/" [] (0 : Nat) (fun _ => (none : Option (RegEntry Nat Nat))))) "sst"
        = some (mkRegEntry 1 "SST-2b/" []) ∧
    (register_task "sst" "SST-2b/" [] 1
        (register_task "sst" "SST-2/" [] (0 : Nat) (fun _ => (none : Option (RegEntry Nat Nat))))) "cola"
        = none := by
  have h := register_task_last_wins (K := Nat) "sst" "SST-2/" "SST-2b/" [] [] 0 1
    (fun _ => none)
  exact ⟨h.1, h.2 "cola" (by decide)⟩

/-- C10: the stored entry is the pair `(cls, rel_path)` exactly when no
keyword options are given, and the triple `(cls, rel_path, kw)` exactly when
at least one keyword option is given. -/
theorem register_task_entry_shapes {C K : Type}
    (name p : String) (kw : List (String × K)) (c : C) (reg : Registry C K) :
    ((register_task name p kw c reg) name = some (RegEntry.pair c p) ↔ kw = []) ∧
    ((register_task name p kw c reg) name = some (RegEntry.triple c p kw) ↔ kw ≠ []) := by
  constructor
  · constructor
    · intro h
      by_contra hne
      simp [register_task, mkRegEntry, List.isEmpty_iff, hne] at h
    · intro h
      subst h
      simp [register_task, mkRegEntry]
  · constructor
    · intro h hkw
      subst hkw
      simp [register_task, mkRegEntry] at h
    · intro h
      simp [register_task, mkRegEntry, List.isEmpty_iff, h]

/-- Witness for C10: both shapes arise at concrete inputs. -/
theorem register_task_entry_shapes_witness :
    (register_task "wiki103" "WikiText103/" [] (0 : Nat)
        (fun _ => (none : Option (RegEntry Nat Nat)))) "wiki103"
      = some (RegEntry.pair 0 "WikiText103/") ∧
    (register_task "wmt_debug" "wmt_debug/" [("max_targ_v_size", 5000)] (0 : Nat)
        (fun _ => (none : Option (RegEntry Nat Nat)))) "wmt_debug"
      = some (RegEntry.triple 0 "wmt_debug/" [("max_targ_v_size", 5000)]) := by
  refine ⟨((register_task_entry_shapes "wiki103" "WikiText103/" [] 0 _).1).2 rfl, ?_⟩
  exact ((register_task_entry_shapes "wmt_debug" "wmt_debug/" [("max_targ_v_size", 5000)] 0
    (fun _ => none)).2).2 (by decide)

/-- C6: for a target whose half-open span is `[i, j)`, `make_instance` stores
the span offset by `+1` for the injected start-of-sequence token: start index
`i + 1` and inclusive end index `j` (that is, `j - 1 + 1`).  This holds for
every target of the record, for both span lists. -/
theorem make_instance_span_offset (i j : Int) (targets : List EdgeTarget) :
    makeSpanField (i, j) 1 = (i + 1, j) ∧
    makeInstanceSpan1s targets = targets.map (fun t => (t.span1.1 + 1, t.span1.2)) ∧
    makeInstanceSpan2s targets = targets.map (fun t => (t.span2.1 + 1, t.span2.2)) := by
  refine ⟨?_, ?_, ?_⟩
  · simp only [makeSpanField]
    have : j - 1 + 1 = j := by omega
    simp [this]
  · simp only [makeInstanceSpan1s, makeSpanField]
    apply List.map_congr_left
    intro t _
    have : t.span1.2 - 1 + 1 = t.span1.2 := by omega
    simp [this]
  · simp only [makeInstanceSpan2s, makeSpanField]
    apply List.map_congr_left
    intro t _
    have : t.span2.2 - 1 + 1 = t.span2.2 := by omega
    simp [this]

/-- C3: for every task variant constructed by the module, `val_metric` is
`"{task_name}_{metric_key}"` for a `metric_key` that is a key of the
dictionary `get_metrics` returns, whatever the aggregator state (and hence
whatever the reset flag, which only affects state, not keys). -/
theorem val_metric_key_in_get_metrics (c : TaskClass) (name : String)
    (env : MetricsEnv) :
    ∃ key, key ∈ (classGetMetrics env c).map Prod.fst ∧
      classValMetric name c = name ++ "_" ++ key := by
  cases c with
  | singleClassification =>
    exact ⟨"accuracy", by simp [classGetMetrics, accuracyGetMetrics],
      (String.append_assoc name "_" "accuracy").symm⟩
  | pairClassification =>
    exact ⟨"accuracy", by simp [classGetMetrics, accuracyGetMetrics],
      (String.append_assoc name "_" "accuracy").symm⟩
  | edgeProbing =>
    exact ⟨"f1", by simp [classGetMetrics, edgeGetMetrics],
      (String.append_assoc name "_" "f1").symm⟩
  | pairRegression =>
    exact ⟨"mse", by simp [classGetMetrics, pairRegressionGetMetrics],
      (String.append_assoc name "_" "mse").symm⟩
  | pairOrdinalRegression =>
    exact ⟨"1-mse", by simp [classGetMetrics, pairOrdinalGetMetrics],
      (String.append_assoc name "_" "1-mse").symm⟩
  | sequenceGeneration =>
    exact ⟨"bleu", by simp [classGetMetrics, sequenceGenerationGetMetrics],
      (String.append_assoc name "_" "bleu").symm⟩
  | languageModeling =>
    exact ⟨"perplexity", by simp [classGetMetrics, lmGetMetrics],
      (String.append_assoc name "_" "perplexity").symm⟩
  | reddit =>
    exact ⟨"accuracy", by simp [classGetMetrics, accuracyGetMetrics],
      (String.append_assoc name "_" "accuracy").symm⟩
  | redditPairClassification =>
    exact ⟨"accuracy", by simp [classGetMetrics, accuracyGetMetrics],
      (String.append_assoc name "_" "accuracy").symm⟩
  | cola =>
    exact ⟨"mcc", by simp [classGetMetrics, colaGetMetrics],
      (String.append_assoc name "_" "mcc").symm⟩
  | qqp =>
    exact ⟨"acc_f1", by simp [classGetMetrics, qqpGetMetrics],
      (String.append_assoc name "_" "acc_f1").symm⟩
  | mnliSingleGenre =>
    exact ⟨"accuracy", by simp [classGetMetrics, accuracyGetMetrics],
      (String.append_assoc name "_" "accuracy").symm⟩
  | mrpc =>
    exact ⟨"acc_f1", by simp [classGetMetrics, qqpGetMetrics],
      (String.append_assoc name "_" "acc_f1").symm⟩
  | stsb =>
    exact ⟨"corr", by simp [classGetMetrics, stsbGetMetrics],
      (String.append_assoc name "_" "corr").symm⟩
  | mnliDiagnostic =>
    exact ⟨"accuracy", by simp [classGetMetrics, diagGetMetrics],
      (String.append_assoc name "_" "accuracy").symm⟩
  | mt =>
    exact ⟨"perplexity", by simp [classGetMetrics, mtGetMetrics],
      (String.append_assoc name "_" "perplexity").symm⟩
  | wiki103Classification =>
    exact ⟨"accuracy", by simp [classGetMetrics, accuracyGetMetrics],
      (String.append_assoc name "_" "accuracy").symm⟩
  | dissent =>
    exact ⟨"accuracy", by simp [classGetMetrics, accuracyGetMetrics],
      (String.append_assoc name "_" "accuracy").symm⟩
  | grounded =>
    exact ⟨"metric", by simp [classGetMetrics, groundedGetMetrics],
      (String.append_assoc name "_" "metric").symm⟩
  | groundedSW =>
    exact ⟨"metric", by simp [classGetMetrics, groundedGetMetrics],
      (String.append_assoc name "_" "metric").symm⟩
  | tagging =>
    exact ⟨"accuracy", by simp [classGetMetrics, accuracyGetMetrics],
      (String.append_assoc name "_" "accuracy").symm⟩

/-- Counterexample to C8 as stated: the metrics dictionary of an
edge-probing task has five entries, never four, at any aggregator state
(shown here at a concrete one). -/
theorem edge_metrics_not_four_entries :
    ¬ (edgeGetMetrics (V := Int) 0 0 (0, 0, 0)).length = 4 := by
  decide

/-- C8 (amended): exactly three metric aggregators run per edge-probing task
(a Matthews-correlation scorer, boolean accuracy, binary F1 with positive
label 1), and every call to `get_metrics` returns a dictionary of exactly
five composed entries — mcc, acc, precision, recall, f1 — the F1 aggregator
contributing three of them. -/
theorem edge_metrics_three_scorers_five_entries {V : Type} (mcc acc : V)
    (f1m : V × V × V) :
    edgeProbingScorers.length = 3 ∧
    edgeProbingScorers = [.fastMatthews, .booleanAccuracy, .f1Measure 1] ∧
    (edgeGetMetrics mcc acc f1m).map Prod.fst
      = ["mcc", "acc", "precision", "recall", "f1"] ∧
    (edgeGetMetrics mcc acc f1m).length = 5 :=
  ⟨rfl, rfl, rfl, rfl⟩

/-- A list is a prefix (in the boolean sense) of itself followed by
anything. -/
theorem isPrefixOf_append_self (l₁ l₂ : List Char) :
    l₁.isPrefixOf (l₁ ++ l₂) = true := by
  induction l₁ with
  | nil => simp [List.isPrefixOf]
  | cons a as ih => simp [List.isPrefixOf, ih]

/-- If `p` is not a character-level prefix of `s`, then no extension of `p`
equals `s`. -/
theorem append_ne_of_not_prefixOf (p s : String)
    (h : p.data.isPrefixOf s.data = false) (t : String) : p ++ t ≠ s := by
  intro heq
  have hd : p.data ++ t.data = s.data := congrArg String.data heq
  rw [← hd, isPrefixOf_append_self] at h
  simp at h

/-- A tag-field key `g ++ "__" ++ t` is never the bare dimension name `g`. -/
theorem own_tag_ne (g t : String) : g ++ "__" ++ t ≠ g := by
  intro heq
  have hd : (g.data ++ "__".data) ++ t.data = g.data := congrArg String.data heq
  have hlen := congrArg List.length hd
  simp [List.length_append] at hlen

/-- `dictGet` skips a suffix in which the key is absent. -/
theorem dictGet_append_none (l₁ l₂ : List (String × DiagField)) (key : String)
    (h : dictGet l₂ key = none) : dictGet (l₁ ++ l₂) key = dictGet l₁ key := by
  induction l₁ with
  | nil => simpa using h
  | cons p rest ih =>
    obtain ⟨k, v⟩ := p
    simp only [List.cons_append, dictGet, List.append_eq]
    rw [ih]

/-- `dictGet` returns the suffix's binding when the key is bound there
(last assignment wins). -/
theorem dictGet_append_some (l₁ l₂ : List (String × DiagField)) (key : String)
    (v₀ : DiagField) (h : dictGet l₂ key = some v₀) :
    dictGet (l₁ ++ l₂) key = some v₀ := by
  induction l₁ with
  | nil => simpa using h
  | cons p rest ih =>
    obtain ⟨k, v⟩ := p
    simp only [List.cons_append, dictGet, List.append_eq]
    rw [ih]

/-- The per-tag presence fields of dimension `g` never bind a key `s` that no
`g ++ "__" ++ t` can equal. -/
theorem dictGet_tagFields_none (dict : List (Nat × String)) (arr : List Nat)
    (g s : String) (h : ∀ t, g ++ "__" ++ t ≠ s) :
    dictGet (tagFields dict arr g) s = none := by
  induction dict with
  | nil => rfl
  | cons p rest ih =>
    have hcons : tagFields (p :: rest) arr g
        = if p.1 = 0 then tagFields rest arr g
          else (g ++ "__" ++ p.2, DiagField.label (if p.1 ∈ arr then 1 else 0))
              :: tagFields rest arr g := by
      simp only [tagFields, List.filterMap_cons]
      by_cases h0 : p.1 = 0
      · rw [if_pos h0, if_pos h0]
      · rw [if_neg h0, if_neg h0]
    rw [hcons]
    by_cases h0 : p.1 = 0
    · rw [if_pos h0]
      exact ih
    · have hs : s ≠ g ++ "__" ++ p.2 := fun hc => h p.2 hc.symm
      rw [if_neg h0]
      simp only [dictGet]
      rw [ih]
      simp [hs]

/-- The dimension field of a block is the "any tag present" bit. -/
theorem dictGet_block (dict : List (Nat × String)) (arr : List Nat)
    (g : String) :
    dictGet (createLabelsFromTags dict arr g) g
      = some (.label (if arr.length ≠ 0 then 1 else 0)) := by
  simp only [createLabelsFromTags, dictGet]
  rw [dictGet_tagFields_none dict arr g g (fun t => own_tag_ne g t)]
  simp

/-- A block for dimension `g` binds no key `s` foreign to it. -/
theorem dictGet_block_ne (dict : List (Nat × String)) (arr : List Nat)
    (g s : String) (hg : s ≠ g) (h : ∀ t, g ++ "__" ++ t ≠ s) :
    dictGet (createLabelsFromTags dict arr g) s = none := by
  simp only [createLabelsFromTags, dictGet]
  rw [dictGet_tagFields_none dict arr g s h]
  simp [hg]

/-- C9: in the Instance built for a diagnostic row, the "any tag present"
field of each of the four dimensions is exactly `0` when the row's tag array
for that dimension is empty and exactly `1` when it is non-empty — for all
four dimensions simultaneously within the one record, whatever the tag
tables contain. -/
theorem diag_any_tag_present (d : DiagDicts) (r : DiagRow) :
    dictGet (diagMakeInstance d r) "lex_sem"
        = some (.label (if r.lex_sem = [] then 0 else 1)) ∧
    dictGet (diagMakeInstance d r) "pr_ar_str"
        = some (.label (if r.pr_ar_str = [] then 0 else 1)) ∧
    dictGet (diagMakeInstance d r) "logic"
        = some (.label (if r.logic = [] then 0 else 1)) ∧
    dictGet (diagMakeInstance d r) "knowledge"
        = some (.label (if r.knowledge = [] then 0 else 1)) := by
  have hconv : ∀ l : List Nat,
      (if l.length ≠ 0 then (1 : Int) else 0) = if l = [] then 0 else 1 := by
    intro l
    cases l <;> simp
  refine ⟨?_, ?_, ?_, ?_⟩
  · simp only [diagMakeInstance]
    rw [dictGet_append_none _ _ _
        (dictGet_block_ne d.knowledgeDic r.knowledge "knowledge" "lex_sem"
          (by decide)
          (fun t => append_ne_of_not_prefixOf ("knowledge" ++ "__") "lex_sem" (by decide) t)),
      dictGet_append_none _ _ _
        (dictGet_block_ne d.logicDic r.logic "logic" "lex_sem"
          (by decide)
          (fun t => append_ne_of_not_prefixOf ("logic" ++ "__") "lex_sem" (by decide) t)),
      dictGet_append_none _ _ _
        (dictGet_block_ne d.prArStrDic r.pr_ar_str "pr_ar_str" "lex_sem"
          (by decide)
          (fun t => append_ne_of_not_prefixOf ("pr_ar_str" ++ "__") "lex_sem" (by decide) t)),
      dictGet_append_some _ _ _ _ (dictGet_block d.lexSemDic r.lex_sem "lex_sem"),
      hconv r.lex_sem]
  · simp only [diagMakeInstance]
    rw [dictGet_append_none _ _ _
        (dictGet_block_ne d.knowledgeDic r.knowledge "knowledge" "pr_ar_str"
          (by decide)
          (fun t => append_ne_of_not_prefixOf ("knowledge" ++ "__") "pr_ar_str" (by decide) t)),
      dictGet_append_none _ _ _
        (dictGet_block_ne d.logicDic r.logic "logic" "pr_ar_str"
          (by decide)
          (fun t => append_ne_of_not_prefixOf ("logic" ++ "__") "pr_ar_str" (by decide) t)),
      dictGet_append_some _ _ _ _ (dictGet_block d.prArStrDic r.pr_ar_str "pr_ar_str"),
      hconv r.pr_ar_str]
  · simp only [diagMakeInstance]
    rw [dictGet_append_none _ _ _
        (dictGet_block_ne d.knowledgeDic r.knowledge "knowledge" "logic"
          (by decide)
          (fun t => append_ne_of_not_prefixOf ("knowledge" ++ "__") "logic" (by decide) t)),
      dictGet_append_some _ _ _ _ (dictGet_block d.logicDic r.logic "logic"),
      hconv r.logic]
  · simp only [diagMakeInstance]
    rw [dictGet_append_some _ _ _ _ (dictGet_block d.knowledgeDic r.knowledge "knowledge"),
      hconv r.knowledge]

end Jiant
